import Mathlib

/-!
# Verification of `scripts/speech_activity_detection.py`

Shallow embedding of the orchestration logic of the speech-activity-detection
script (train / validation / tune / apply pipeline).  External library calls
(neural sequence labeling, aggregation, binarization, metric internals,
Gaussian-process optimisation) are modelled as opaque parameter functions or
as the per-file metric components they are documented to produce; everything
the script itself computes (loops, accumulators, file writes, name scoping,
caching, argument construction) is translated directly from the source.
-/

namespace SAD

/-! ## Metric components

`pyannote.metrics` base metrics accumulate, per processed file, a numerator
and a denominator; calling the metric on one file returns that file's
`num / den` while adding the components to the running totals, and `abs(metric)`
(the metric's `__abs__`) returns the ratio of the accumulated totals.  We model
a per-file contribution as a `Components` pair of rationals. -/

structure Components where
  num : ℚ
  den : ℚ
  deriving DecidableEq, Repr

/-- Value of a metric from its components (`num / den`).  This is both the
per-file value returned by calling the metric and, applied to accumulated
components, the aggregate returned by `abs(metric)`. -/
def ratio (c : Components) : ℚ := c.num / c.den

/-- Accumulation of metric components (what a `pyannote.metrics` metric object
does internally each time it is called on a file). -/
def addComp (a b : Components) : Components := ⟨a.num + b.num, a.den + b.den⟩

/-- Total of a list of per-file components. -/
def sumComps (l : List Components) : Components := l.foldl addComp ⟨0, 0⟩

/-- Micro-average of a metric over files: ratio of summed components. -/
def microAverage (l : List Components) : ℚ := ratio (sumComps l)

/-- `pyannote.metrics.f_measure(precision, recall, beta)`:
`(1 + beta^2) * p * r / (beta^2 * p + r)`. -/
def fMeasure (beta p r : ℚ) : ℚ := (1 + beta ^ 2) * p * r / (beta ^ 2 * p + r)

/-- `np.mean` on a list of rationals (sum divided by length; the empty case
uses the `ℚ` convention `x / 0 = 0`). -/
def mean (l : List ℚ) : ℚ := l.sum / l.length

/-! ## Checkpoint paths and the epoch scanner

`WEIGHTS_H5 = '\x7btrain_dir\x7d/weights/\x7bepoch:04d\x7d.h5'` and the scanner loop of
`tune` (lines 371-376):

    nb_epoch = 0
    while True:
        weights_h5 = WEIGHTS_H5.format(train_dir=train_dir, epoch=nb_epoch)
        if not os.path.isfile(weights_h5):
            break
        nb_epoch += 1

We model the file system as the list `fs` of epoch indices whose weights file
exists, and the loop as a fuelled linear probe; fuel `fs.length + 1` is enough
because some index in `0 .. fs.length` must be missing. -/

/-- Zero-padded 4-digit rendering of an epoch index (`\x7bepoch:04d\x7d`). -/
def pad4 (n : Nat) : String :=
  let s := toString n
  String.mk (List.replicate (4 - s.length) '0') ++ s

/-- The `WEIGHTS_H5` path template. -/
def weightsH5 (trainDir : String) (epoch : Nat) : String :=
  trainDir ++ "/weights/" ++ pad4 epoch ++ ".h5"

/-- One step of the scanner loop: probe indices `k, k+1, ...` while the
weights file exists, return the first index whose file is missing (or give up
when fuel runs out, which `nbEpochScan` arranges never to happen). -/
def probeFrom (fs : List Nat) : Nat → Nat → Nat
  | k, 0 => k
  | k, fuel + 1 => if k ∈ fs then probeFrom fs (k + 1) fuel else k

/-- The scanner of `tune`: value of `nb_epoch` after the `while True` loop,
given the set `fs` of existing checkpoint epochs. -/
def nbEpochScan (fs : List Nat) : Nat := probeFrom fs 0 (fs.length + 1)

theorem probeFrom_correct (fs : List Nat) :
    ∀ (fuel k : Nat), (∃ j, j ∉ fs ∧ k ≤ j ∧ j < k + fuel) →
      probeFrom fs k fuel ∉ fs ∧ k ≤ probeFrom fs k fuel ∧
        ∀ i, k ≤ i → i < probeFrom fs k fuel → i ∈ fs := by
  intro fuel
  induction fuel with
  | zero =>
    intro k ⟨j, _, hkj, hj⟩
    omega
  | succ fuel ih =>
    intro k ⟨j, hjfs, hkj, hj⟩
    by_cases hk : k ∈ fs
    · have hne : j ≠ k := fun h => hjfs (h ▸ hk)
      have ⟨h1, h2, h3⟩ := ih (k + 1) ⟨j, hjfs, by omega, by omega⟩
      refine ⟨by simpa [probeFrom, hk] using h1, ?_, ?_⟩
      · simp only [probeFrom, if_pos hk]
        omega
      · intro i hki hi
        simp only [probeFrom, if_pos hk] at hi
        rcases Nat.lt_or_ge i (k + 1) with hlt | hge
        · have : i = k := by omega
          exact this ▸ hk
        · exact h3 i hge hi
    · refine ⟨by simp [probeFrom, hk], by simp [probeFrom, hk], ?_⟩
      intro i hki hi
      simp only [probeFrom, if_neg hk] at hi
      omega

theorem exists_missing_epoch (fs : List Nat) :
    ∃ j, j ∉ fs ∧ j < fs.length + 1 := by
  by_contra h
  push_neg at h
  have hsub : Finset.range (fs.length + 1) ⊆ fs.toFinset := by
    intro j hj
    rw [Finset.mem_range] at hj
    rcases Decidable.em (j ∈ fs) with hmem | hmem
    · exact List.mem_toFinset.mpr hmem
    · exact absurd (h j hmem) (by omega)
  have h1 : fs.length + 1 ≤ fs.toFinset.card := by
    simpa using Finset.card_le_card hsub
  have h2 : fs.toFinset.card ≤ fs.length := fs.toFinset_card_le
  omega

/-- The scanner returns the least epoch index with no weights file. -/
theorem nbEpochScan_least (fs : List Nat) :
    nbEpochScan fs ∉ fs ∧ ∀ i, i < nbEpochScan fs → i ∈ fs := by
  obtain ⟨j, hj, hjlt⟩ := exists_missing_epoch fs
  have ⟨h1, _, h3⟩ := probeFrom_correct fs (fs.length + 1) 0
    ⟨j, hj, Nat.zero_le j, by omega⟩
  exact ⟨h1, fun i hi => h3 i (Nat.zero_le i) hi⟩

/-! ## The `gp_minimize` call of `tune` (lines 478-487)

    epoch = skopt.space.Integer(0, nb_epoch - 1)
    onset = skopt.space.Real(0., 1., prior='uniform')
    offset = skopt.space.Real(0., 1., prior='uniform')
    res = skopt.gp_minimize(
        objective_function,
        [epoch, onset, offset], callback=callback,
        n_calls=1000, n_random_starts=10,
        x0=[nb_epoch - 1, 0.5, 0.5],
        random_state=1337, verbose=True)

The optimiser itself is external; we record the arguments the script builds
for it.  `skopt.space.Integer(a, b)` is the inclusive integer range `[a, b]`
and `skopt.space.Real(a, b, prior)` the real interval `[a, b]`. -/

structure GpMinimizeCall where
  nCalls : Nat
  nRandomStarts : Nat
  randomState : Nat
  epochLow : Int
  epochHigh : Int
  onsetLow : ℚ
  onsetHigh : ℚ
  onsetPrior : String
  offsetLow : ℚ
  offsetHigh : ℚ
  offsetPrior : String
  x0 : Int × ℚ × ℚ
  deriving DecidableEq, Repr

/-- The optimizer call constructed by `tune` when the existing checkpoint
epochs are `fs` (so `nb_epoch` is the scanner's result). -/
def tuneGpCall (fs : List Nat) : GpMinimizeCall :=
  let nbEpoch := nbEpochScan fs
  { nCalls := 1000
    nRandomStarts := 10
    randomState := 1337
    epochLow := 0
    epochHigh := (nbEpoch : Int) - 1
    onsetLow := 0
    onsetHigh := 1
    onsetPrior := "uniform"
    offsetLow := 0
    offsetHigh := 1
    offsetPrior := "uniform"
    x0 := ((nbEpoch : Int) - 1, 1/2, 1/2) }

/-! ## The tuning callback (lines 435-476)

    def callback(res):
        n_trials = len(res.func_vals)
        ... save tune.yml ...
        ... plot convergence ...
        if n_trials % 10 > 0:
            return
        ... plot evaluations ...
        try:
            ... plot objective ...
        except Exception as e:
            pass
        ... dump tune.gz ...

We record which side effects one invocation performs, as a function of the
number of trials so far and of whether the (external) objective-plot step
raises an exception. -/

structure CallbackActions where
  savedTuneYml : Bool
  plottedConvergence : Bool
  plottedEvaluations : Bool
  plottedObjective : Bool
  savedTuneGz : Bool
  deriving DecidableEq, Repr

/-- The side effects of one `callback(res)` invocation with
`n_trials = len(res.func_vals) = nTrials`; `objectivePlotFails` models the
external `skopt.plots.plot_objective`/`savefig` step raising an exception
(caught by the `try`/`except` and ignored). -/
def callbackActions (nTrials : Nat) (objectivePlotFails : Bool) : CallbackActions :=
  let everyTenth := nTrials % 10 == 0
  { savedTuneYml := true
    plottedConvergence := true
    plottedEvaluations := everyTenth
    plottedObjective := everyTenth && !objectivePlotFails
    savedTuneGz := everyTenth }

/-! ## The validation polling loop (lines 306-361)

    epoch = 0
    while True:
        weights_h5 = WEIGHTS_H5.format(train_dir=train_dir, epoch=epoch)
        if not os.path.isfile(weights_h5):
            time.sleep(60)
            continue
        ... evaluate epoch, write DER line, plot ...
        epoch += 1

One iteration of the loop body either sleeps (weights file missing, epoch
unchanged) or processes the epoch and moves on; the body contains no `break`
or `return`, so it can never produce the `ret` outcome. -/

inductive LoopOutcome where
  /-- The loop runs another iteration, after sleeping `sleepSecs` (if any),
  with the given next value of `epoch`. -/
  | step (sleepSecs : Option Nat) (epoch : Nat)
  /-- The loop terminates normally (break / return / fall-through). -/
  | ret
  deriving DecidableEq, Repr

/-- One iteration of the `while True` loop of `validate`: `ex e` tells whether
the weights file for epoch `e` exists. -/
def validateBody (ex : Nat → Bool) (epoch : Nat) : LoopOutcome :=
  if ex epoch then LoopOutcome.step none (epoch + 1)
  else LoopOutcome.step (some 60) epoch

/-! ## The DER log file of `validate` (lines 302-338)

    path = validation_dir + '/\x7bsubset\x7d.der.txt'.format(subset=subset)
    with open(path, mode='w') as fp:
        ...
            fp.write(DER_TEMPLATE.format(epoch=epoch, der=der, now=now))
            fp.flush()

The file is opened once with mode `'w'` — which truncates any existing
content — and each epoch's line is then written to the same handle.  We model
the file content as the list of written chunks. -/

/-- `open(path, mode='w')`: truncates the file, discarding `prior`. -/
def fileOpenW (prior : List String) : List String := []

/-- `fp.write(line)` on a handle opened for writing appends to the content. -/
def fileWrite (content : List String) (line : String) : List String :=
  content ++ [line]

/-- Content of `\x7bsubset\x7d.der.txt` after `validate` opened it (over a file
whose previous content was `prior`) and wrote the DER lines `lines`. -/
def validateDerWrites (prior : List String) (lines : List String) : List String :=
  lines.foldl fileWrite (fileOpenW prior)

/-! ## The conditional `der` binding in `validate` (lines 332-337)

    if isinstance(protocol, SpeakerDiarizationProtocol):
        der, onset, offset = speech_activity_detection_xp(...)
    fp.write(DER_TEMPLATE.format(epoch=epoch, der=der, now=now))

`der` is a local of `validate` assigned only inside the `isinstance` branch;
if the branch is not taken, evaluating `der` in the write raises
`UnboundLocalError` before anything is written.  We model the binding as an
`Option` and the write as an `Except`: `.ok content` is the file content after
a successful write, `.error` an uncaught Python name error. -/

/-- The `DER_TEMPLATE` line (`'\x7bepoch:04d\x7d \x7bnow\x7d \x7bder:5f\x7d\n'`); the float
rendering of `der` is kept abstract via `showDer`. -/
def derTemplate (showDer : ℚ → String) (epoch : Nat) (now : String) (der : ℚ) : String :=
  pad4 epoch ++ " " ++ now ++ " " ++ showDer der ++ "\n"

/-- One pass of `validate`'s loop body from the evaluation step to the DER
write, given whether the protocol is a `SpeakerDiarizationProtocol`, the
result `xp` of `speech_activity_detection_xp` (only evaluated in that case),
and the file content so far. -/
def validateDerLineWrite (showDer : ℚ → String) (isSDProtocol : Bool)
    (xp : ℚ × ℚ × ℚ) (content : List String) (epoch : Nat) (now : String) :
    Except String (List String) :=
  let der? : Option ℚ := if isSDProtocol then some xp.1 else none
  match der? with
  | some der => Except.ok (fileWrite content (derTemplate showDer epoch now der))
  | none => Except.error "UnboundLocalError: local variable der referenced before assignment"

/-! ## Apply-mode scoring loop of `test` (lines 536-580)

    TEMPLATE = '\x7buri\x7d \x7bprecision:.5f\x7d \x7brecall:.5f\x7d \x7bf_measure:.5f\x7d\n'
    precision = DetectionPrecision()
    recall = DetectionRecall()
    fscore = []
    for test_file in getattr(protocol, subset)():
        ... write soft.pkl / hard.json ...
        try:
            reference = test_file['annotation']
            uem = test_file['annotated']
        except KeyError as e:
            continue
        p = precision(reference, hard, uem=uem)
        r = recall(reference, hard, uem=uem)
        f = f_measure(p, r, beta=beta)
        fscore.append(f)
        ... append line to eval.txt ...
    p = abs(precision)
    r = abs(recall)
    f = np.mean(fscore)
    ... append 'ALL' line to eval.txt ...

A test item carries its uri, the optional `annotation` / `annotated` entries
of its record (a missing key raises `KeyError`, caught by the `try` which
skips to the next item), and the per-file precision / recall components that
the external `DetectionPrecision` / `DetectionRecall` metrics would compute
for it. -/

structure TestItem where
  uri : String
  annotation : Option Unit
  annotated : Option Unit
  pComp : Components
  rComp : Components
  deriving DecidableEq, Repr

structure EvalLine where
  uri : String
  precisionVal : ℚ
  recallVal : ℚ
  fMeasureVal : ℚ
  deriving DecidableEq, Repr

/-- Mutable state of the apply-mode loop: the accumulated components of the
`precision` and `recall` metric objects, the `fscore` list, and the lines
appended to `eval.txt` so far. -/
structure TestState where
  pAcc : Components
  rAcc : Components
  fscore : List ℚ
  lines : List EvalLine
  deriving DecidableEq, Repr

def initTestState : TestState := ⟨⟨0, 0⟩, ⟨0, 0⟩, [], []⟩

/-- One iteration of the apply-mode loop body, from the `try` block on: if the
record lacks `annotation` or `annotated`, the `KeyError` is caught and the
item skipped (`continue`); otherwise the metrics are called (returning the
per-file value and accumulating) and a line is appended to `eval.txt`. -/
def processTestFile (beta : ℚ) (s : TestState) (item : TestItem) : TestState :=
  match item.annotation, item.annotated with
  | some _, some _ =>
    let p := ratio item.pComp
    let r := ratio item.rComp
    let f := fMeasure beta p r
    { pAcc := addComp s.pAcc item.pComp
      rAcc := addComp s.rAcc item.rComp
      fscore := s.fscore ++ [f]
      lines := s.lines ++ [⟨item.uri, p, r, f⟩] }
  | _, _ => s

/-- State after the apply-mode loop has processed all test items. -/
def testRun (beta : ℚ) (items : List TestItem) : TestState :=
  items.foldl (processTestFile beta) initTestState

/-- The final `'ALL'` line of `eval.txt`: `p = abs(precision)`,
`r = abs(recall)` (ratios of the accumulated components) and
`f = np.mean(fscore)`. -/
def testAllLine (beta : ℚ) (items : List TestItem) : EvalLine :=
  let s := testRun beta items
  ⟨"ALL", ratio s.pAcc, ratio s.rAcc, mean s.fscore⟩

/-- The test items that are actually scored (both record keys present). -/
def processedItems (items : List TestItem) : List TestItem :=
  items.filter fun i => i.annotation.isSome && i.annotated.isSome

/-! ## Name resolution at line 521 of `test` (apply mode)

    # -- HYPER-PARAMETERS --
    tune_yml = tune_dir + '/tune.yml'
    with open(tune_yml, 'r') as fp:
        tune = yaml.load(fp)
    architecture_yml = train_dir + '/architecture.yml'
    weights_h5 = WEIGHTS_H5.format(train_dir=train_dir, epoch=epoch)

Python resolves a name to the function's locals, then the module globals,
then builtins; an unresolved name raises `NameError`.  We list every name
bound in `test` up to line 520 (parameters and assignments, in source order)
and every module-level name bound when the script runs in apply mode, and
model evaluation of the `WEIGHTS_H5.format(...)` call, whose argument
expressions are `train_dir` and `epoch`. -/

/-- Names bound in the scope of `test` before line 521: the five parameters,
then each assignment target of lines 494-520 in order. -/
def testLocalNames : List String :=
  ["protocol", "tune_dir", "apply_dir", "subset", "beta",
   "train_dir", "config_dir", "config_yml", "fp", "config",
   "feature_extraction_name", "features", "FeatureExtraction",
   "feature_extraction", "duration", "step", "tune_yml", "tune",
   "architecture_yml"]

/-- Module-level names bound when the script is executed in apply mode:
imports, the `WEIGHTS_H5` constant, the six function definitions, and the
assignments of the `__main__` block on the apply path. -/
def moduleNames : List String :=
  ["time", "yaml", "pickle", "os", "datetime", "functools", "np",
   "docopt", "matplotlib", "plt", "pyannote",
   "SequenceLabeling", "SpeechActivityDetectionBatchGenerator",
   "SequenceLabelingAggregation", "Binarize",
   "get_database", "FileFinder", "get_unique_identifier", "get_annotated",
   "SpeakerDiarizationProtocol", "mkdir_p", "SSMORMS3",
   "skopt", "DetectionErrorRate", "DetectionRecall", "DetectionPrecision",
   "f_measure", "WEIGHTS_H5",
   "train", "get_aggregation", "speech_activity_detection_xp",
   "validate", "tune", "test",
   "arguments", "db_yml", "preprocessors", "protocol",
   "database_name", "task_name", "protocol_name", "database",
   "subset", "tune_dir", "beta", "apply_dir"]

/-- Whether a name evaluated inside `test` resolves (locals, then module
globals). -/
def resolvesInTest (n : String) : Bool :=
  n ∈ testLocalNames || n ∈ moduleNames

/-- The key of `tune.yml` holding the epoch selected by tune mode (written by
`callback`: `params = \x7b ..., 'epoch': int(epoch), ... \x7d`). -/
def tuneYmlKeys : List String := ["status", "epoch", "onset", "offset"]

/-- Evaluation of line 521, `WEIGHTS_H5.format(train_dir=train_dir,
epoch=epoch)`: each argument name must resolve, else Python raises
`NameError`.  On success the checkpoint path would be `weightsH5` of the
resolved values; the `epoch` argument's value is irrelevant here because the
name does not resolve at all. -/
def applyWeightsPath (trainDirVal : String) (epochVal : Nat) :
    Except String String :=
  if resolvesInTest "train_dir" && resolvesInTest "epoch" then
    Except.ok (weightsH5 trainDirVal epochVal)
  else
    Except.error "NameError: name epoch is not defined"

/-! ## The tuning objective function (lines 395-433)

    predictions = \x7b\x7d
    def objective_function(parameters):
        epoch, onset, offset = parameters
        ... load model for epoch ...
        if epoch not in predictions:
            predictions[epoch] = \x7b\x7d
        error = DetectionErrorRate()
        for dev_file in getattr(protocol, subset)():
            uri = get_unique_identifier(dev_file)
            reference = dev_file['annotation']
            uem = get_annotated(dev_file)
            if uri in predictions[epoch]:
                prediction = predictions[epoch][uri]
            else:
                prediction = aggregation.apply(dev_file)
                predictions[epoch][uri] = prediction
            binarizer = Binarize(onset=onset, offset=offset)
            hypothesis = binarizer.apply(prediction, dimension=1)
            _ = error(reference, hypothesis, uem=uem)
        return abs(error)

The externals — `aggregation.apply`, `Binarize(...).apply` and the error-rate
components the metric adds per file — are opaque parameter functions over
abstract types of predictions, hypotheses, references and annotated regions.
The two-level cache `predictions` (epoch, then uri) is an association list
with most-recent binding first. -/

section ObjectiveFunction

variable {Pred Hyp Annot Uem : Type}

/-- A development file: uri, reference annotation (`dev_file['annotation']`)
and the annotated region (`get_annotated(dev_file)`). -/
structure DevFile (Annot Uem : Type) where
  uri : String
  annotation : Annot
  annotated : Uem

/-- Lookup in a per-epoch prediction cache (`uri in predictions[epoch]` /
`predictions[epoch][uri]`). -/
def cacheLookup (c : List (String × Pred)) (u : String) : Option Pred :=
  match c.find? (fun e => e.1 == u) with
  | some e => some e.2
  | none => none

/-- One iteration of the dev-file loop: fetch-or-compute the prediction
(inserting it into the per-epoch cache when computed), binarize it, and add
this file's detection-error components to the running metric. -/
def objectiveStep (agg : DevFile Annot Uem → Pred)
    (bin : ℚ → ℚ → Pred → Hyp)
    (errComp : Annot → Hyp → Uem → Components)
    (onset offset : ℚ)
    (st : Components × List (String × Pred)) (f : DevFile Annot Uem) :
    Components × List (String × Pred) :=
  let pc : Pred × List (String × Pred) :=
    match cacheLookup st.2 f.uri with
    | some p => (p, st.2)
    | none => ((agg f), (f.uri, agg f) :: st.2)
  let hyp := bin onset offset pc.1
  (addComp st.1 (errComp f.annotation hyp f.annotated), pc.2)

/-- The dev-file loop of `objective_function`, folded over the subset. -/
def objectiveLoop (agg : DevFile Annot Uem → Pred)
    (bin : ℚ → ℚ → Pred → Hyp)
    (errComp : Annot → Hyp → Uem → Components)
    (onset offset : ℚ)
    (devFiles : List (DevFile Annot Uem)) (epCache : List (String × Pred)) :
    Components × List (String × Pred) :=
  devFiles.foldl (objectiveStep agg bin errComp onset offset) (⟨0, 0⟩, epCache)

/-- `predictions[epoch]` (after `if epoch not in predictions:
predictions[epoch] = \x7b\x7d`). -/
def getEpochCache (cache : List (Nat × List (String × Pred))) (epoch : Nat) :
    List (String × Pred) :=
  match cache.find? (fun e => e.1 == epoch) with
  | some e => e.2
  | none => []

/-- Update of `predictions[epoch]` in the outer cache. -/
def setEpochCache (cache : List (Nat × List (String × Pred))) (epoch : Nat)
    (ec : List (String × Pred)) : List (Nat × List (String × Pred)) :=
  (epoch, ec) :: cache

/-- `objective_function([epoch, onset, offset])`: returns `abs(error)` — the
ratio of the accumulated detection-error components — together with the state
of the `predictions` cache after the call (the Python closure mutates it in
place). -/
def objective_function (agg : DevFile Annot Uem → Pred)
    (bin : ℚ → ℚ → Pred → Hyp)
    (errComp : Annot → Hyp → Uem → Components)
    (devFiles : List (DevFile Annot Uem))
    (cache : List (Nat × List (String × Pred)))
    (epoch : Nat) (onset offset : ℚ) :
    ℚ × List (Nat × List (String × Pred)) :=
  let r := objectiveLoop agg bin errComp onset offset devFiles
    (getEpochCache cache epoch)
  (ratio r.1, setEpochCache cache epoch r.2)

end ObjectiveFunction

/-! ## Claim theorems -/

/-- Claim C3: the epoch scanner probes linearly from 0 and returns the
smallest epoch index whose weights file does not exist, stopping at the first
gap; with epochs 0, 1, 2, 4, 5 on disk it reports 3 even though 4 and 5
exist. -/
theorem epoch_scanner_first_gap :
    (∀ fs : List Nat, nbEpochScan fs ∉ fs ∧ ∀ i, i < nbEpochScan fs → i ∈ fs) ∧
    nbEpochScan [0, 1, 2, 4, 5] = 3 :=
  ⟨fun fs => nbEpochScan_least fs, by decide⟩

/-- Witness for C3: instantiating the scanner theorem at the concrete file
set with a gap at 3. -/
theorem epoch_scanner_first_gap_witness :
    2 ∈ ([0, 1, 2, 4, 5] : List Nat) :=
  (epoch_scanner_first_gap.1 [0, 1, 2, 4, 5]).2 2 (by decide)

/-- Claim C5: `tune` calls the optimizer with exactly 1000 trials, 10
random-start trials, random seed 1337, integer epoch domain
`[0, nb_epoch - 1]` (equivalently `0 ≤ e < nb_epoch` where `nb_epoch` is the
number of checkpoints found by the epoch scanner), and uniform real domains
`[0, 1]` for onset and offset. -/
theorem tune_gp_call_spec (fs : List Nat) :
    (tuneGpCall fs).nCalls = 1000 ∧
    (tuneGpCall fs).nRandomStarts = 10 ∧
    (tuneGpCall fs).randomState = 1337 ∧
    (∀ e : Int, ((tuneGpCall fs).epochLow ≤ e ∧ e ≤ (tuneGpCall fs).epochHigh) ↔
      (0 ≤ e ∧ e < (nbEpochScan fs : Int))) ∧
    (tuneGpCall fs).onsetLow = 0 ∧ (tuneGpCall fs).onsetHigh = 1 ∧
    (tuneGpCall fs).onsetPrior = "uniform" ∧
    (tuneGpCall fs).offsetLow = 0 ∧ (tuneGpCall fs).offsetHigh = 1 ∧
    (tuneGpCall fs).offsetPrior = "uniform" := by
  refine ⟨rfl, rfl, rfl, ?_, rfl, rfl, rfl, rfl, rfl, rfl⟩
  intro e
  simp only [tuneGpCall]
  omega

/-- Witness for C5: the optimizer-call theorem at a concrete checkpoint set
(epochs 0 and 1 exist), with the epoch-domain equivalence applied at `e = 1`. -/
theorem tune_gp_call_spec_witness :
    (tuneGpCall [0, 1]).nCalls = 1000 ∧
    ((0 : Int) ≤ 1 ∧ (1 : Int) < (nbEpochScan [0, 1] : Int)) :=
  ⟨(tune_gp_call_spec [0, 1]).1,
   ((tune_gp_call_spec [0, 1]).2.2.2.1 1).mp (by decide)⟩

/-- Counterexample to claim C6 as stated: the convergence plot is regenerated
after trial 1, which is not a 10th trial, so the diagnostic plots are not
regenerated exactly after every 10th trial. -/
theorem callback_convergence_every_trial_cex :
    (callbackActions 1 false).plottedConvergence = true ∧ ¬ (1 % 10 = 0) := by
  decide

/-- Claim C6 (amended): after every trial the callback persists the
best-so-far parameters to tune.yml and regenerates the convergence plot;
exactly after every 10th trial it regenerates the parameter-space evaluations
plot and — unless that step fails — the partial-dependence objective plot. -/
theorem callback_actions_spec (n : Nat) (fails : Bool) :
    (callbackActions n fails).savedTuneYml = true ∧
    (callbackActions n fails).plottedConvergence = true ∧
    ((callbackActions n fails).plottedEvaluations = true ↔ n % 10 = 0) ∧
    ((callbackActions n fails).plottedObjective = true ↔
      (n % 10 = 0 ∧ fails = false)) ∧
    ((callbackActions n fails).savedTuneGz = true ↔ n % 10 = 0) := by
  cases fails <;> simp [callbackActions]

/-- Claim C7: one iteration of the validation polling loop never produces the
terminate outcome (the `while True` body has no break or return), and when
the weights file for the current epoch is missing it sleeps exactly 60
seconds and re-checks the same epoch. -/
theorem validate_polling_never_returns (ex : Nat → Bool) (e : Nat) :
    validateBody ex e ≠ LoopOutcome.ret ∧
    (ex e = false → validateBody ex e = LoopOutcome.step (some 60) e) := by
  constructor
  · cases h : ex e <;> simp [validateBody, h]
  · intro h
    simp [validateBody, h]

/-- Witness for C7: the polling theorem at epoch 0 with no weights file
present. -/
theorem validate_polling_never_returns_witness :
    validateBody (fun _ => false) 0 ≠ LoopOutcome.ret ∧
    validateBody (fun _ => false) 0 = LoopOutcome.step (some 60) 0 :=
  ⟨(validate_polling_never_returns (fun _ => false) 0).1,
   (validate_polling_never_returns (fun _ => false) 0).2 rfl⟩

/-- Claim C10: if the protocol is not a `SpeakerDiarizationProtocol`, the
first loop iteration of `validate` reaches the DER write with `der` unbound
and fails with an undefined-variable error, writing nothing; when the
protocol is such an instance, the line is written. -/
theorem validate_requires_sd_protocol (showDer : ℚ → String)
    (xp : ℚ × ℚ × ℚ) (content : List String) (epoch : Nat) (now : String) :
    validateDerLineWrite showDer false xp content epoch now =
      Except.error
        "UnboundLocalError: local variable der referenced before assignment" ∧
    validateDerLineWrite showDer true xp content epoch now =
      Except.ok (fileWrite content (derTemplate showDer epoch now xp.1)) :=
  ⟨rfl, rfl⟩

/-- Counterexample to claim C4 as stated: `validate` opens the DER file with
mode `'w'`, so content from a prior run ("PRIOR") is truncated — after the
new run writes "LINE", the prior content is gone from the file. -/
theorem der_txt_truncates_prior_cex :
    validateDerWrites ["PRIOR"] ["LINE"] = ["LINE"] ∧
    "PRIOR" ∉ validateDerWrites ["PRIOR"] ["LINE"] :=
  ⟨rfl, by decide⟩

/-- Claim C4 (amended): within a single run of validation mode each epoch's
DER line is appended, preserving the lines written earlier in that run; but
the file is opened with mode `'w'`, so content from a prior run is truncated
rather than preserved. -/
theorem der_txt_appends_within_run (prior l1 l2 : List String) :
    validateDerWrites prior (l1 ++ l2) = validateDerWrites prior l1 ++ l2 ∧
    validateDerWrites prior l1 = l1 := by
  have hfold : ∀ (ls acc : List String), ls.foldl fileWrite acc = acc ++ ls := by
    intro ls
    induction ls with
    | nil => intro acc; simp
    | cons x xs ih => intro acc; simp [fileWrite, ih]
  constructor
  · simp [validateDerWrites, fileOpenW, hfold]
  · simp [validateDerWrites, fileOpenW, hfold]

/-- Claim C2 (code bug): at line 521 of `test` (apply mode), the name `epoch`
resolves neither in the locals of `test` nor at module level, so building the
checkpoint path raises `NameError` on every invocation — even though the
tuned epoch was loaded into scope as `tune` (whose dict has an `epoch` key),
it is never used to select the weights file. -/
theorem apply_epoch_name_error (trainDirVal : String) (epochVal : Nat) :
    resolvesInTest "epoch" = false ∧
    applyWeightsPath trainDirVal epochVal =
      Except.error "NameError: name epoch is not defined" ∧
    resolvesInTest "tune" = true ∧
    "epoch" ∈ tuneYmlKeys := by
  have h : (resolvesInTest "train_dir" && resolvesInTest "epoch") = false := by
    decide
  exact ⟨by decide, by simp [applyWeightsPath, h], by decide, by decide⟩

/-- Characterization of the apply-mode loop: starting from any state, the
accumulated precision / recall components, the `fscore` list and the written
lines are those contributed by the items whose record has both keys. -/
theorem testRun_spec (beta : ℚ) (items : List TestItem) (s : TestState) :
    (items.foldl (processTestFile beta) s).pAcc
        = (processedItems items).foldl (fun a i => addComp a i.pComp) s.pAcc ∧
    (items.foldl (processTestFile beta) s).rAcc
        = (processedItems items).foldl (fun a i => addComp a i.rComp) s.rAcc ∧
    (items.foldl (processTestFile beta) s).fscore
        = s.fscore ++ (processedItems items).map
            (fun i => fMeasure beta (ratio i.pComp) (ratio i.rComp)) ∧
    (items.foldl (processTestFile beta) s).lines
        = s.lines ++ (processedItems items).map
            (fun i => ⟨i.uri, ratio i.pComp, ratio i.rComp,
              fMeasure beta (ratio i.pComp) (ratio i.rComp)⟩) := by
  induction items generalizing s with
  | nil => simp [processedItems]
  | cons i rest ih =>
    obtain ⟨u, ann, annd, pc, rc⟩ := i
    cases ann with
    | some a =>
      cases annd with
      | some b =>
        have hstep : processTestFile beta s ⟨u, some a, some b, pc, rc⟩ =
            { pAcc := addComp s.pAcc pc
              rAcc := addComp s.rAcc rc
              fscore := s.fscore ++ [fMeasure beta (ratio pc) (ratio rc)]
              lines := s.lines ++ [⟨u, ratio pc, ratio rc,
                fMeasure beta (ratio pc) (ratio rc)⟩] } := rfl
        have hproc : processedItems (⟨u, some a, some b, pc, rc⟩ :: rest)
            = ⟨u, some a, some b, pc, rc⟩ :: processedItems rest := by
          simp [processedItems]
        obtain ⟨h1, h2, h3, h4⟩ := ih (processTestFile beta s ⟨u, some a, some b, pc, rc⟩)
        refine ⟨?_, ?_, ?_, ?_⟩
        · simpa [hstep, hproc] using h1
        · simpa [hstep, hproc] using h2
        · simp [hstep, hproc] at h3 ⊢
          simp [h3]
        · simp [hstep, hproc] at h4 ⊢
          simp [h4]
      | none =>
        have hstep : processTestFile beta s ⟨u, some a, none, pc, rc⟩ = s := rfl
        have hproc : processedItems (⟨u, some a, none, pc, rc⟩ :: rest)
            = processedItems rest := by
          simp [processedItems]
        obtain ⟨h1, h2, h3, h4⟩ := ih s
        simp only [List.foldl_cons, hstep, hproc]
        exact ⟨h1, h2, h3, h4⟩
    | none =>
      have hstep : processTestFile beta s ⟨u, none, annd, pc, rc⟩ = s := rfl
      have hproc : processedItems (⟨u, none, annd, pc, rc⟩ :: rest)
          = processedItems rest := by
        simp [processedItems]
      obtain ⟨h1, h2, h3, h4⟩ := ih s
      simp only [List.foldl_cons, hstep, hproc]
      exact ⟨h1, h2, h3, h4⟩

/-- Counterexample to claim C1 as stated: with two scored files whose
precision / recall components are (1, 1), (1, 1) and (1, 2), (1, 2), the ALL
line written by `test` carries f-measure 3/4 (the mean of the per-file
f-measures 1 and 1/2) while the micro-average of the f-measure — the
f-measure of the micro-averaged precision 2/3 and recall 2/3 — is 2/3, so the
three ALL values are not all micro-averages. -/
theorem apply_all_line_f_not_micro_cex :
    (testAllLine 1 [⟨"a", some (), some (), ⟨1, 1⟩, ⟨1, 1⟩⟩,
        ⟨"b", some (), some (), ⟨1, 2⟩, ⟨1, 2⟩⟩]).fMeasureVal = 3 / 4 ∧
    fMeasure 1
      (microAverage ((processedItems [⟨"a", some (), some (), ⟨1, 1⟩, ⟨1, 1⟩⟩,
        ⟨"b", some (), some (), ⟨1, 2⟩, ⟨1, 2⟩⟩]).map (fun i => i.pComp)))
      (microAverage ((processedItems [⟨"a", some (), some (), ⟨1, 1⟩, ⟨1, 1⟩⟩,
        ⟨"b", some (), some (), ⟨1, 2⟩, ⟨1, 2⟩⟩]).map (fun i => i.rComp)))
      = 2 / 3 ∧
    (3 / 4 : ℚ) ≠ 2 / 3 := by
  refine ⟨?_, ?_, by norm_num⟩
  · norm_num [testAllLine, testRun, processTestFile, initTestState, mean,
      fMeasure, ratio]
  · norm_num [processedItems, microAverage, sumComps, addComp, ratio, fMeasure]

/-- Claim C1 (amended): the final eval.txt line has uri "ALL"; its precision
and recall are the micro-averages (ratios of accumulated components) over the
processed files, while its f-measure is the unweighted arithmetic mean of the
per-file f-measures (a macro-average), not in general the micro-average. -/
theorem apply_all_line_spec (beta : ℚ) (items : List TestItem) :
    (testAllLine beta items).uri = "ALL" ∧
    (testAllLine beta items).precisionVal
        = microAverage ((processedItems items).map (fun i => i.pComp)) ∧
    (testAllLine beta items).recallVal
        = microAverage ((processedItems items).map (fun i => i.rComp)) ∧
    (testAllLine beta items).fMeasureVal
        = mean ((processedItems items).map
            (fun i => fMeasure beta (ratio i.pComp) (ratio i.rComp))) := by
  obtain ⟨h1, h2, h3, _⟩ := testRun_spec beta items initTestState
  refine ⟨rfl, ?_, ?_, ?_⟩
  · show ratio (List.foldl (processTestFile beta) initTestState items).pAcc = _
    rw [h1]
    simp [microAverage, sumComps, List.foldl_map, initTestState]
  · show ratio (List.foldl (processTestFile beta) initTestState items).rAcc = _
    rw [h2]
    simp [microAverage, sumComps, List.foldl_map, initTestState]
  · show mean (List.foldl (processTestFile beta) initTestState items).fscore = _
    rw [h3]
    simp [initTestState]

/-- Claim C8: an apply-mode test item whose record lacks the reference
annotation (or the annotated region) is silently skipped — the metric state
and eval.txt lines are unchanged and the remaining items are processed as if
it were absent; and in the tuning callback an objective-plot failure is
caught and ignored, leaving the subsequent tune.gz dump unaffected. -/
theorem apply_skips_missing_reference (beta : ℚ) (u : String)
    (a : Option Unit) (pc rc : Components) (s : TestState)
    (rest : List TestItem) (n : Nat) :
    processTestFile beta s ⟨u, none, a, pc, rc⟩ = s ∧
    processTestFile beta s ⟨u, some (), none, pc, rc⟩ = s ∧
    testRun beta (⟨u, none, a, pc, rc⟩ :: rest) = testRun beta rest ∧
    (callbackActions n true).savedTuneGz = (callbackActions n false).savedTuneGz := by
  refine ⟨?_, rfl, ?_, rfl⟩
  · cases a <;> rfl
  · show List.foldl _ (processTestFile beta initTestState ⟨u, none, a, pc, rc⟩) rest
        = List.foldl _ initTestState rest
    cases a <;> rfl

/-! ## Determinism of the tuning objective (claim C9)

The objective mutates the `predictions` cache, but only by inserting entries
that are absent; re-evaluating it on the same `(epoch, onset, offset)` with
the cache left by the first evaluation reproduces the same detection-error
score (and leaves the per-epoch cache unchanged). -/

section ObjectiveFunctionLemmas

variable {Pred Hyp Annot Uem : Type}
variable (agg : DevFile Annot Uem → Pred) (bin : ℚ → ℚ → Pred → Hyp)
variable (errComp : Annot → Hyp → Uem → Components) (onset offset : ℚ)

theorem cacheLookup_cons (k : String) (v : Pred) (c : List (String × Pred))
    (u : String) :
    cacheLookup ((k, v) :: c) u = if (k == u) then some v else cacheLookup c u := by
  cases h : (k == u) <;> simp [cacheLookup, List.find?, h]

theorem objectiveStep_hit {acc : Components} {ec : List (String × Pred)}
    {f : DevFile Annot Uem} {p : Pred} (h : cacheLookup ec f.uri = some p) :
    objectiveStep agg bin errComp onset offset (acc, ec) f
      = (addComp acc (errComp f.annotation (bin onset offset p) f.annotated), ec) := by
  simp [objectiveStep, h]

theorem objectiveStep_miss {acc : Components} {ec : List (String × Pred)}
    {f : DevFile Annot Uem} (h : cacheLookup ec f.uri = none) :
    objectiveStep agg bin errComp onset offset (acc, ec) f
      = (addComp acc (errComp f.annotation (bin onset offset (agg f)) f.annotated),
         (f.uri, agg f) :: ec) := by
  simp [objectiveStep, h]

/-- Entries present in the per-epoch cache are never overwritten by the
dev-file loop. -/
theorem foldl_step_preserves (files : List (DevFile Annot Uem)) :
    ∀ (st : Components × List (String × Pred)) (u : String) (p : Pred),
      cacheLookup st.2 u = some p →
      cacheLookup
        (files.foldl (objectiveStep agg bin errComp onset offset) st).2 u
        = some p := by
  induction files with
  | nil =>
    intro st u p h
    simpa using h
  | cons f rest ih =>
    intro st u p h
    simp only [List.foldl_cons]
    apply ih
    cases hl : cacheLookup st.2 f.uri with
    | some q => simpa [objectiveStep, hl] using h
    | none =>
      have hne : (f.uri == u) = false := by
        cases heq : (f.uri == u)
        · rfl
        · exfalso
          have huri : f.uri = u := by simpa using heq
          rw [huri, h] at hl
          cases hl
      simp [objectiveStep, hl, cacheLookup_cons, hne, h]

/-- Re-running the dev-file loop from the cache it produced reproduces both
the accumulated error components and the cache. -/
theorem foldl_step_rerun (files : List (DevFile Annot Uem)) :
    ∀ (acc : Components) (ec : List (String × Pred)),
      files.foldl (objectiveStep agg bin errComp onset offset)
        (acc, (files.foldl (objectiveStep agg bin errComp onset offset) (acc, ec)).2)
      = files.foldl (objectiveStep agg bin errComp onset offset) (acc, ec) := by
  induction files with
  | nil =>
    intro acc ec
    rfl
  | cons f rest ih =>
    intro acc ec
    simp only [List.foldl_cons]
    cases hl : cacheLookup ec f.uri with
    | some p =>
      rw [objectiveStep_hit agg bin errComp onset offset hl]
      have hpers := foldl_step_preserves agg bin errComp onset offset rest
        (addComp acc (errComp f.annotation (bin onset offset p) f.annotated), ec)
        f.uri p hl
      rw [objectiveStep_hit agg bin errComp onset offset hpers]
      exact ih (addComp acc (errComp f.annotation (bin onset offset p) f.annotated)) ec
    | none =>
      rw [objectiveStep_miss agg bin errComp onset offset hl]
      have hself : cacheLookup ((f.uri, agg f) :: ec) f.uri = some (agg f) := by
        simp [cacheLookup_cons]
      have hpers := foldl_step_preserves agg bin errComp onset offset rest
        (addComp acc (errComp f.annotation (bin onset offset (agg f)) f.annotated),
          (f.uri, agg f) :: ec)
        f.uri (agg f) hself
      rw [objectiveStep_hit agg bin errComp onset offset hpers]
      exact ih
        (addComp acc (errComp f.annotation (bin onset offset (agg f)) f.annotated))
        ((f.uri, agg f) :: ec)

theorem getEpochCache_set (cache : List (Nat × List (String × Pred)))
    (epoch : Nat) (ec : List (String × Pred)) :
    getEpochCache (setEpochCache cache epoch ec) epoch = ec := by
  simp [getEpochCache, setEpochCache, List.find?]

end ObjectiveFunctionLemmas

/-- Claim C9: for a fixed development subset and the prediction cache as left
by a first evaluation, re-evaluating the tuner's objective function on the
same parameters (epoch, onset, offset) returns the same detection-error
score — the cache is only ever extended with entries that are then reused, so
two successive evaluations at the same parameters agree. -/
theorem objective_function_deterministic {Pred Hyp Annot Uem : Type}
    (agg : DevFile Annot Uem → Pred) (bin : ℚ → ℚ → Pred → Hyp)
    (errComp : Annot → Hyp → Uem → Components)
    (devFiles : List (DevFile Annot Uem))
    (cache : List (Nat × List (String × Pred)))
    (epoch : Nat) (onset offset : ℚ) :
    (objective_function agg bin errComp devFiles
        (objective_function agg bin errComp devFiles cache epoch onset offset).2
        epoch onset offset).1
      = (objective_function agg bin errComp devFiles cache epoch onset offset).1 := by
  simp only [objective_function, objectiveLoop]
  rw [getEpochCache_set]
  rw [foldl_step_rerun agg bin errComp onset offset devFiles ⟨0, 0⟩
    (getEpochCache cache epoch)]

end SAD
